import Mathlib

/-!
Verification development for the Moodbot moderation pipeline
(`src/moodbot.py`).

The pipeline is shallowly embedded: texts are `List Char`, the external
sentiment classifier and the external `hazm` text normalizer are
parameters of the functions that call them, the SQLite record store is a
`List SentimentRecord` threaded explicitly, wall-clock data (today's date,
uuid generation, timestamps) are explicit arguments, and fallible
operations are modelled with `Option` / outcome types.  Scores, which are
Python floats in `[0, 1]`, are modelled as rationals.
-/

/-! ## Character classes

The regular expressions in `preprocess_text` use Python's Unicode-aware
character classes.  They are embedded as explicit code-point predicates,
exact on the character sets this development evaluates them on (ASCII and
the Arabic block U+0600..U+06FF, plus the emoji planes removed by the
`emoji` library). -/

/-- Python's `\s` (and `str.isspace`) whitespace set for `str` patterns. -/
def isSpaceChar (c : Char) : Bool :=
  decide (c.toNat = 32 ∨ (9 ≤ c.toNat ∧ c.toNat ≤ 13) ∨ (28 ≤ c.toNat ∧ c.toNat ≤ 31) ∨
    c.toNat = 133 ∨ c.toNat = 160 ∨ c.toNat = 5760 ∨ (8192 ≤ c.toNat ∧ c.toNat ≤ 8202) ∨
    c.toNat = 8232 ∨ c.toNat = 8233 ∨ c.toNat = 8239 ∨ c.toNat = 8287 ∨ c.toNat = 12288)

/-- Python's `\w` (Unicode letter, digit or underscore), restricted to ASCII
and the Arabic block: the word-forming code points of U+0600..U+06FF
(letters and the two digit rows; combining marks and Arabic punctuation are
not word characters). -/
def isWordChar (c : Char) : Bool :=
  decide ((48 ≤ c.toNat ∧ c.toNat ≤ 57) ∨ (65 ≤ c.toNat ∧ c.toNat ≤ 90) ∨
    c.toNat = 95 ∨ (97 ≤ c.toNat ∧ c.toNat ≤ 122) ∨
    (0x620 ≤ c.toNat ∧ c.toNat ≤ 0x64A) ∨ (0x660 ≤ c.toNat ∧ c.toNat ≤ 0x669) ∨
    (0x66E ≤ c.toNat ∧ c.toNat ≤ 0x66F) ∨ (0x671 ≤ c.toNat ∧ c.toNat ≤ 0x6D3) ∨
    c.toNat = 0x6D5 ∨ (0x6E5 ≤ c.toNat ∧ c.toNat ≤ 0x6E6) ∨
    (0x6EE ≤ c.toNat ∧ c.toNat ≤ 0x6FC) ∨ c.toNat = 0x6FF)

/-- Python's `\d` (Unicode decimal digit), restricted to the blocks reachable
after the earlier stripping steps: ASCII digits and the two Arabic digit
rows (Arabic-Indic U+0660..U+0669 and Extended Arabic-Indic U+06F0..U+06F9). -/
def isDigitChar (c : Char) : Bool :=
  decide ((48 ≤ c.toNat ∧ c.toNat ≤ 57) ∨ (0x660 ≤ c.toNat ∧ c.toNat ≤ 0x669) ∨
    (0x6F0 ≤ c.toNat ∧ c.toNat ≤ 0x6F9))

/-- The Arabic-script digits (the `\d` digits that survive the
`[^؀-ۿ\s]` filter). -/
def isArabicDigit (c : Char) : Bool :=
  decide ((0x660 ≤ c.toNat ∧ c.toNat ≤ 0x669) ∨ (0x6F0 ≤ c.toNat ∧ c.toNat ≤ 0x6F9))

/-- The character class `[a-zA-Z]` of the Latin-letter stripping step. -/
def isLatinLetter (c : Char) : Bool :=
  decide ((65 ≤ c.toNat ∧ c.toNat ≤ 90) ∨ (97 ≤ c.toNat ∧ c.toNat ≤ 122))

/-- The target-script class `[؀-ۿ]` kept (together with
whitespace) by `re.sub(r"[^؀-ۿ\s]", "", text)`. -/
def isArabicChar (c : Char) : Bool :=
  decide (0x600 ≤ c.toNat ∧ c.toNat ≤ 0x6FF)

/-- Model of the external `emoji.replace_emoji` glyph set on the emoji
blocks (Miscellaneous Symbols through Symbols-and-Pictographs planes,
variation selector 16 and zero-width joiner included). -/
def isEmojiChar (c : Char) : Bool :=
  decide ((0x1F000 ≤ c.toNat ∧ c.toNat ≤ 0x1FAFF) ∨ (0x2600 ≤ c.toNat ∧ c.toNat ≤ 0x27BF) ∨
    (0x2B00 ≤ c.toNat ∧ c.toNat ≤ 0x2BFF) ∨ c.toNat = 0xFE0F ∨ c.toNat = 0x200D)

/-- Characters that can occur in a `str(uuid.uuid4())` record id:
lowercase hexadecimal digits and the dash. -/
def isHexDash (c : Char) : Bool :=
  decide ((48 ≤ c.toNat ∧ c.toNat ≤ 57) ∨ (97 ≤ c.toNat ∧ c.toNat ≤ 102) ∨ c.toNat = 45)

/-! ## The normalization chain of `preprocess_text` (moodbot.py 134-147)

Each `re.sub(pat, "", text)` is embedded as a left-to-right scan removing
every leftmost match, exactly the semantics of Python's `re.sub`. -/

/-- `prefixMatches pat s` holds when `pat` is a literal prefix of `s`. -/
def prefixMatches : List Char → List Char → Bool
  | [], _ => true
  | _ :: _, [] => false
  | a :: as, b :: bs => if a = b then prefixMatches as bs else false

/-- Python's substring test `pat in s`. -/
def containsSubstr (pat : List Char) : List Char → Bool
  | [] => match pat with | [] => true | _ => false
  | c :: rest => prefixMatches pat (c :: rest) || containsSubstr pat rest

/-- The character at index `i` exists and is not whitespace. -/
def nonspaceAt (s : List Char) (i : Nat) : Bool :=
  match s.drop i with
  | c :: _ => !(isSpaceChar c)
  | [] => false

/-- A match of `http\S+|www\.\S+` starts at the head of `s`: the literal
lead (`http` or `www.`) followed by at least one non-whitespace character. -/
def urlMatchStart (s : List Char) : Bool :=
  (prefixMatches "http".data s && nonspaceAt s 4) ||
    (prefixMatches "www.".data s && nonspaceAt s 4)

/-- `re.sub(r"http\S+|www\.\S+", "", text)` as a scan.  The flag records
that the scanner is inside a match, whose greedy `\S+` extends to the end
of the current non-whitespace run. -/
def urlScan : Bool → List Char → List Char
  | _, [] => []
  | inMatch, c :: rest =>
    if inMatch = true ∧ isSpaceChar c = false then urlScan true rest
    else if urlMatchStart (c :: rest) = true then urlScan true rest
    else c :: urlScan false rest

def removeUrls (s : List Char) : List Char := urlScan false s

/-- The head of `s` exists and is a `\w` character. -/
def firstIsWord : List Char → Bool
  | c :: _ => isWordChar c
  | [] => false

/-- `re.sub(mark + r"\w+", "", text)` as a scan (`mark` is `@` for
mentions, `#` for hashtags).  The flag records that the scanner is inside
the greedy `\w+` of a match. -/
def markScan (mark : Char) : Bool → List Char → List Char
  | _, [] => []
  | inMatch, c :: rest =>
    if inMatch = true ∧ isWordChar c = true then markScan mark true rest
    else if c = mark ∧ firstIsWord rest = true then markScan mark true rest
    else c :: markScan mark false rest

def removeMentions (s : List Char) : List Char := markScan '@' false s

def removeHashtags (s : List Char) : List Char := markScan '#' false s

/-- `emoji.replace_emoji(text, replace="")`. -/
def removeEmoji (s : List Char) : List Char := s.filter (fun c => !(isEmojiChar c))

/-- `re.sub(r"[a-zA-Z]", "", text)`. -/
def removeLatin (s : List Char) : List Char := s.filter (fun c => !(isLatinLetter c))

/-- `re.sub(r"[^؀-ۿ\s]", "", text)`. -/
def keepArabicAndSpace (s : List Char) : List Char :=
  s.filter (fun c => isArabicChar c || isSpaceChar c)

/-- `re.sub(r"\s+", " ", text)`: each maximal whitespace run becomes one
space.  The flag records that the previous character was whitespace (so
the run's single replacement space was already emitted). -/
def collapseWsAux : Bool → List Char → List Char
  | _, [] => []
  | prev, c :: rest =>
    if isSpaceChar c = true then
      (if prev then collapseWsAux true rest else ' ' :: collapseWsAux true rest)
    else c :: collapseWsAux false rest

def collapseWs (s : List Char) : List Char := collapseWsAux false s

/-- Python's `.strip()`: drop leading and trailing whitespace. -/
def stripEnds (s : List Char) : List Char :=
  (((s.dropWhile (fun c => isSpaceChar c)).reverse.dropWhile
    (fun c => isSpaceChar c)).reverse)

/-- `re.sub(r"\d+", "", text)`. -/
def removeDigits (s : List Char) : List Char := s.filter (fun c => !(isDigitChar c))

/-- `preprocess_text` (moodbot.py 134-147).  The external
`hazm.Normalizer().normalize` call between whitespace collapsing and digit
stripping is a parameter. -/
def preprocess_text (hazmNormalize : List Char → List Char) (text : List Char) : List Char :=
  removeDigits (hazmNormalize (stripEnds (collapseWs (keepArabicAndSpace
    (removeLatin (removeEmoji (removeHashtags (removeMentions (removeUrls text)))))))))

/-- Texts fixed by any reasonable external normalizer: only target-script
characters and single interior spaces.  The output of the regex chain up to
the `hazm` call always has this shape. -/
def CleanText (t : List Char) : Prop :=
  (∀ c ∈ t, isArabicChar c = true ∨ c = ' ') ∧
  List.Chain' (fun a b => ¬(a = ' ' ∧ b = ' ')) t ∧
  (∀ c, t.head? = some c → c ≠ ' ') ∧
  (∀ c, t.getLast? = some c → c ≠ ' ')

/-! ## Classification adapter (moodbot.py 150-166)

The external `sentiment_pipeline` is a parameter; `Except.error ()` models
any exception it raises (including on malformed or empty input). -/

/-- `analyze_sentiment` (moodbot.py 150-166): map the classifier's raw
label into the three-valued domain; catch any classifier error and return
`("ERROR", 0.0)`. -/
def analyze_sentiment (classify : List Char → Except Unit (String × ℚ))
    (text : List Char) : String × ℚ :=
  match classify text with
  | Except.ok (label, score) =>
    if label = "HAPPY" then ("POSITIVE", score)
    else if label = "SAD" then ("NEGATIVE", score)
    else ("NEUTRAL", score)
  | Except.error _ => ("ERROR", 0)

/-! ## Record store (moodbot.py 64-131) -/

/-- One row of the `sentiment_data` SQLite table. -/
structure SentimentRecord where
  id : String
  message_text : List Char
  sentiment : String
  score : ℚ
  label : Option String
  timestamp : Nat
deriving DecidableEq

/-- `save_message_data` (moodbot.py 91-110): INSERT a fresh row with the
generated uuid, `label` unset and the store-defaulted timestamp.  The uuid
and the clock are external, so they are arguments. -/
def save_message_data (unique_id : String) (now : Nat) (message_text : List Char)
    (sentiment : String) (score : ℚ) (store : List SentimentRecord) :
    List SentimentRecord :=
  store ++ [⟨unique_id, message_text, sentiment, score, none, now⟩]

/-- Outcome a store mutation reports to its caller.  The spec's
`RecordNotFound` would be the second constructor; the code below never
produces it. -/
inductive DbOutcome
  | ok
  | recordNotFound
deriving DecidableEq

/-- `update_feedback_in_dataset` (moodbot.py 113-131): the SQL
`UPDATE sentiment_data SET label = ? WHERE id = ?` sets `label` on every
matching row.  The function commits and returns normally whether or not a
row matched (the rowcount is never inspected), so the outcome is always
`DbOutcome.ok`. -/
def update_feedback_in_dataset (unique_id : String) (label : String)
    (store : List SentimentRecord) : List SentimentRecord × DbOutcome :=
  (store.map (fun r =>
    if r.id = unique_id then ⟨r.id, r.message_text, r.sentiment, r.score, some label, r.timestamp⟩
    else r), DbOutcome.ok)

/-! ## Daily aggregator (moodbot.py 59-60, 212-213) -/

/-- `messages_data[today].append(sentiment)` on the `defaultdict(list)`:
append to the day's bucket, creating it when absent. -/
def appendToDay (day : String) (sentiment : String) :
    List (String × List String) → List (String × List String)
  | [] => [(day, [sentiment])]
  | (d, l) :: rest =>
    if d = day then (d, l ++ [sentiment]) :: rest
    else (d, l) :: appendToDay day sentiment rest

/-- Read a day's bucket (empty when the day is absent). -/
def dayBucket (day : String) : List (String × List String) → List String
  | [] => []
  | (d, l) :: rest => if d = day then l else dayBucket day rest

/-! ## Ingestion handler `mood_analyzer` (moodbot.py 202-228) -/

/-- The fields of a telethon `NewMessage` event that the handler reads.
`chat_id` identifies the chat the message came from; the handler is
registered with `events.NewMessage()` (no chat filter). -/
structure Event where
  is_group : Bool
  chat_id : Int
  raw_text : List Char
deriving DecidableEq

/-- The process state the handler mutates: the SQLite store and the
in-memory `messages_data` aggregator. -/
structure BotState where
  store : List SentimentRecord
  messages_data : List (String × List String)
deriving DecidableEq

/-- The alert message sent to `admin_group_id`, with the two inline-button
payloads (moodbot.py 216-227). -/
structure Alert where
  negativity_percentage : ℚ
  message_text : List Char
  button_negative_data : String
  button_not_negative_data : String
deriving DecidableEq

/-- How one invocation of `mood_analyzer` ends. `storageFailed` models the
sqlite exception escaping `save_message_data` and aborting the handler. -/
inductive MoodOutcome
  | notProcessed
  | storageFailed
  | done
  | alerted (a : Alert)
deriving DecidableEq

/-- Whether an alert was sent to the review destination. -/
def MoodOutcome.isAlert : MoodOutcome → Bool
  | MoodOutcome.alerted _ => true
  | _ => false

/-- `mood_analyzer` (moodbot.py 202-228).  Filter on `event.is_group and
event.raw_text`; preprocess; classify; persist; append to today's bucket;
alert iff `sentiment == "NEGATIVE" and score > 0.6` (the threshold literal
`0.6` is the rational `mkRat 6 10`).  When the store is unavailable the
`save_message_data` call raises, so the bucket append and the alert are
never reached and the state is unchanged. -/
def mood_analyzer (classify : List Char → Except Unit (String × ℚ))
    (hazmNormalize : List Char → List Char) (unique_id : String) (today : String)
    (now : Nat) (storageAvailable : Bool) (ev : Event) (st : BotState) :
    BotState × MoodOutcome :=
  if ev.is_group = true ∧ ev.raw_text ≠ [] then
    let message_text := preprocess_text hazmNormalize ev.raw_text
    let sentiment := (analyze_sentiment classify message_text).1
    let score := (analyze_sentiment classify message_text).2
    if storageAvailable then
      let store1 := save_message_data unique_id now message_text sentiment score st.store
      let md1 := appendToDay today sentiment st.messages_data
      if sentiment = "NEGATIVE" ∧ score > mkRat 6 10 then
        (⟨store1, md1⟩, MoodOutcome.alerted
          ⟨score * 100, message_text, "label_negative:" ++ unique_id,
            "label_not_negative:" ++ unique_id⟩)
      else (⟨store1, md1⟩, MoodOutcome.done)
    else (st, MoodOutcome.storageFailed)
  else (st, MoodOutcome.notProcessed)

/-! ## Feedback workflow `handle_feedback` (moodbot.py 231-243) -/

/-- Line 237: `label = "negative" if "label_negative" in data else
"not_negative"` — a substring test on the decoded payload. -/
def decodeLabel (data : List Char) : String :=
  if containsSubstr "label_negative".data data then "negative" else "not_negative"

/-- Line 238: `data.split(":", 1)[1]` — everything after the first colon;
`none` when the payload has no colon, in which case the `[1]` raises
`IndexError`. -/
def splitFirstColon : List Char → Option (List Char)
  | [] => none
  | c :: rest => if c = ':' then some rest else splitFirstColon rest

/-- How one invocation of `handle_feedback` ends: `crashed` models the
uncaught `IndexError` (the handler aborts before `event.answer`);
`acknowledged` means the label was written and the reviewer's interaction
was answered. -/
inductive FeedbackOutcome
  | crashed
  | acknowledged (store : List SentimentRecord) (label : String) (unique_id : String)
deriving DecidableEq

/-- Whether the reviewer's interaction was acknowledged (`event.answer`). -/
def FeedbackOutcome.isAck : FeedbackOutcome → Bool
  | FeedbackOutcome.acknowledged _ _ _ => true
  | FeedbackOutcome.crashed => false

/-- `handle_feedback` (moodbot.py 231-243): decode the payload, derive the
label by substring test, parse the record id after the first colon, update
the store, acknowledge. -/
def handle_feedback (payload : List Char) (store : List SentimentRecord) :
    FeedbackOutcome :=
  let label := decodeLabel payload
  match splitFirstColon payload with
  | none => FeedbackOutcome.crashed
  | some uidChars =>
    FeedbackOutcome.acknowledged
      (update_feedback_in_dataset (String.mk uidChars) label store).1
      label (String.mk uidChars)

/-! ## Daily summary counts (moodbot.py 176-185 and 254-259)

`generate_mood_chart` and `daily_mood_summary` compute the same three
counts from a day's bucket:
`pos = sum(1 for s if s == "POSITIVE")`, `neg = sum(1 for s if s ==
"NEGATIVE")`, `neu = len - pos - neg`. -/

def pos_count (sentiments : List String) : Nat :=
  sentiments.countP (fun s => s == "POSITIVE")

def neg_count (sentiments : List String) : Nat :=
  sentiments.countP (fun s => s == "NEGATIVE")

def neu_count (sentiments : List String) : Nat :=
  sentiments.length - pos_count sentiments - neg_count sentiments

/-! ## General lemmas -/

theorem string_data_append (a b : String) : (a ++ b).data = a.data ++ b.data := by
  cases a; cases b; rfl

theorem dayBucket_appendToDay (day s : String) (m : List (String × List String)) :
    dayBucket day (appendToDay day s m) = dayBucket day m ++ [s] := by
  induction m with
  | nil => simp [appendToDay, dayBucket]
  | cons p rest ih =>
    obtain ⟨d, l⟩ := p
    by_cases hd : d = day
    · simp [appendToDay, dayBucket, hd]
    · simp [appendToDay, dayBucket, hd, ih]

theorem pos_add_neg_le_length (l : List String) :
    pos_count l + neg_count l ≤ l.length := by
  have h := List.length_eq_countP_add_countP (fun s => s == "POSITIVE") l
  have h2 : neg_count l ≤ l.countP (fun a => decide ¬((a == "POSITIVE") = true)) := by
    apply List.countP_mono_left
    intro x _ hx
    simp only [beq_iff_eq] at hx
    subst hx
    decide
  unfold pos_count neg_count at *
  omega

theorem splitFirstColon_of_mem (payload : List Char) (h : ':' ∈ payload) :
    ∃ r, splitFirstColon payload = some r := by
  induction payload with
  | nil => cases h
  | cons c rest ih =>
    by_cases hc : c = ':'
    · exact ⟨rest, by simp [splitFirstColon, hc]⟩
    · rcases List.mem_cons.mp h with h1 | h2
      · exact absurd h1.symm hc
      · obtain ⟨r, hr⟩ := ih h2
        exact ⟨r, by simp [splitFirstColon, hc, hr]⟩

theorem map_eq_self_of_no_match (unique_id label : String)
    (store : List SentimentRecord) (h : ∀ r ∈ store, r.id ≠ unique_id) :
    (update_feedback_in_dataset unique_id label store).1 = store := by
  unfold update_feedback_in_dataset
  induction store with
  | nil => rfl
  | cons r rest ih =>
    simp only [List.map_cons, List.map, if_neg (h r (List.mem_cons_self r rest))]
    have := ih (fun q hq => h q (List.mem_cons_of_mem r hq))
    simp only [List.map] at this
    simp [this]

/-! ## Substring lemmas for the feedback payload tokens -/

theorem prefixMatches_append_self (pat x : List Char) :
    prefixMatches pat (pat ++ x) = true := by
  induction pat with
  | nil => rfl
  | cons a as ih => simp [prefixMatches, ih]

theorem containsSubstr_of_prefixMatches (pat s : List Char) (hne : pat ≠ [])
    (h : prefixMatches pat s = true) : containsSubstr pat s = true := by
  cases s with
  | nil => cases pat with
    | nil => exact absurd rfl hne
    | cons a as => simp [prefixMatches] at h
  | cons c rest =>
    show (prefixMatches pat (c :: rest) || containsSubstr pat rest) = true
    simp [h]

theorem containsSubstr_negToken_hexdash (u : List Char)
    (hu : ∀ c ∈ u, isHexDash c = true) :
    containsSubstr "label_negative".data u = false := by
  induction u with
  | nil => rfl
  | cons c rest ih =>
    have hc : isHexDash c = true := hu c (List.mem_cons_self c rest)
    have hcl : ¬('l' = c) := by
      intro he
      rw [← he] at hc
      exact absurd hc (by decide)
    show (prefixMatches "label_negative".data (c :: rest) ||
      containsSubstr "label_negative".data rest) = false
    rw [ih (fun d hd => hu d (List.mem_cons_of_mem c hd)),
      show ("label_negative".data) = 'l' :: "abel_negative".data from rfl]
    simp [prefixMatches, hcl]

/-! ## Claim C1 -/

/-- C1: for every ingested message (a group message with non-empty text
whose record insert succeeds), an alert is sent to the review destination
if and only if the classified sentiment is `NEGATIVE` and the score is
strictly greater than 0.6; in particular a `NEGATIVE` message with score
exactly 0.6 produces no alert (the inequality is strict). -/
theorem alert_iff_negative_above_threshold
    (classify : List Char → Except Unit (String × ℚ))
    (hazmNormalize : List Char → List Char) (unique_id today : String)
    (now : Nat) (ev : Event) (st : BotState)
    (hg : ev.is_group = true) (ht : ev.raw_text ≠ []) :
    (mood_analyzer classify hazmNormalize unique_id today now true ev st).2.isAlert = true ↔
      ((analyze_sentiment classify (preprocess_text hazmNormalize ev.raw_text)).1 = "NEGATIVE" ∧
        (analyze_sentiment classify (preprocess_text hazmNormalize ev.raw_text)).2 >
          mkRat 6 10) := by
  by_cases hc :
      (analyze_sentiment classify (preprocess_text hazmNormalize ev.raw_text)).1 = "NEGATIVE" ∧
        (analyze_sentiment classify (preprocess_text hazmNormalize ev.raw_text)).2 > mkRat 6 10
  · simp [mood_analyzer, hg, ht, hc, MoodOutcome.isAlert]
  · simp [mood_analyzer, hg, ht, hc, MoodOutcome.isAlert]

/-- Witness for C1 at the boundary: classifier returns `("SAD", 0.6)`, so
the sentiment is `NEGATIVE` with score exactly 0.6 and no alert is sent. -/
theorem alert_iff_negative_above_threshold_witness :
    (mood_analyzer (fun _ => Except.ok ("SAD", mkRat 6 10)) (fun s => s) "u1" "d1" 0 true
        ⟨true, 999, "س".data⟩ ⟨[], []⟩).2.isAlert = true ↔
      ((analyze_sentiment (fun _ => Except.ok ("SAD", mkRat 6 10))
          (preprocess_text (fun s => s) "س".data)).1 = "NEGATIVE" ∧
        (analyze_sentiment (fun _ => Except.ok ("SAD", mkRat 6 10))
          (preprocess_text (fun s => s) "س".data)).2 > mkRat 6 10) :=
  alert_iff_negative_above_threshold _ _ _ _ _ _ _ rfl (by decide)

/-! ## Claim C2 -/

/-- C2: for every non-empty day bucket the reported neutral count is the
residual `n - pos - neg`, so the three counts sum exactly to the bucket
length (ERROR entries land in the neutral count); concretely the bucket
`[POSITIVE, POSITIVE, NEGATIVE, ERROR]` yields `pos=2, neg=1, neu=1`. -/
theorem daily_counts_partition (bucket : List String) (_hne : bucket ≠ []) :
    pos_count bucket + neg_count bucket + neu_count bucket = bucket.length ∧
    pos_count ["POSITIVE", "POSITIVE", "NEGATIVE", "ERROR"] = 2 ∧
    neg_count ["POSITIVE", "POSITIVE", "NEGATIVE", "ERROR"] = 1 ∧
    neu_count ["POSITIVE", "POSITIVE", "NEGATIVE", "ERROR"] = 1 := by
  refine ⟨?_, by decide, by decide, by decide⟩
  have h := pos_add_neg_le_length bucket
  unfold neu_count
  omega

/-- Witness for C2 at the spec's concrete scenario bucket. -/
theorem daily_counts_partition_witness :
    pos_count ["POSITIVE", "POSITIVE", "NEGATIVE", "ERROR"] +
      neg_count ["POSITIVE", "POSITIVE", "NEGATIVE", "ERROR"] +
      neu_count ["POSITIVE", "POSITIVE", "NEGATIVE", "ERROR"] =
      (["POSITIVE", "POSITIVE", "NEGATIVE", "ERROR"] : List String).length ∧
    pos_count ["POSITIVE", "POSITIVE", "NEGATIVE", "ERROR"] = 2 ∧
    neg_count ["POSITIVE", "POSITIVE", "NEGATIVE", "ERROR"] = 1 ∧
    neu_count ["POSITIVE", "POSITIVE", "NEGATIVE", "ERROR"] = 1 :=
  daily_counts_partition ["POSITIVE", "POSITIVE", "NEGATIVE", "ERROR"] (by decide)

/-! ## Claim C3 -/

/-- C3: if the external classifier raises on the (preprocessed) text,
classification returns `(ERROR, 0.0)` instead of propagating, and the
message is still persisted to the record store and still appended to the
current day's bucket. -/
theorem classifier_error_still_persisted_and_counted
    (classify : List Char → Except Unit (String × ℚ))
    (hazmNormalize : List Char → List Char) (unique_id today : String)
    (now : Nat) (ev : Event) (st : BotState)
    (hg : ev.is_group = true) (ht : ev.raw_text ≠ [])
    (herr : classify (preprocess_text hazmNormalize ev.raw_text) = Except.error ()) :
    analyze_sentiment classify (preprocess_text hazmNormalize ev.raw_text) = ("ERROR", 0) ∧
    (mood_analyzer classify hazmNormalize unique_id today now true ev st).1.store =
      st.store ++
        [⟨unique_id, preprocess_text hazmNormalize ev.raw_text, "ERROR", 0, none, now⟩] ∧
    dayBucket today
        (mood_analyzer classify hazmNormalize unique_id today now true ev st).1.messages_data =
      dayBucket today st.messages_data ++ ["ERROR"] := by
  have ha : analyze_sentiment classify (preprocess_text hazmNormalize ev.raw_text) =
      ("ERROR", 0) := by
    unfold analyze_sentiment
    rw [herr]
  refine ⟨ha, ?_, ?_⟩
  · simp [mood_analyzer, hg, ht, ha, save_message_data, show ("ERROR" : String) ≠ "NEGATIVE" from by decide]
  · simp [mood_analyzer, hg, ht, ha, dayBucket_appendToDay, show ("ERROR" : String) ≠ "NEGATIVE" from by decide]

/-- Witness for C3: a concrete always-raising classifier on a concrete
group message; the ERROR record is stored and the bucket gets `ERROR`. -/
theorem classifier_error_still_persisted_and_counted_witness :
    analyze_sentiment (fun _ => Except.error ()) (preprocess_text (fun s => s) "س".data) =
      ("ERROR", 0) ∧
    (mood_analyzer (fun _ => Except.error ()) (fun s => s) "u1" "d1" 3 true
        ⟨true, 7, "س".data⟩ ⟨[], []⟩).1.store =
      ([] : List SentimentRecord) ++
        [⟨"u1", preprocess_text (fun s => s) "س".data, "ERROR", 0, none, 3⟩] ∧
    dayBucket "d1"
        (mood_analyzer (fun _ => Except.error ()) (fun s => s) "u1" "d1" 3 true
          ⟨true, 7, "س".data⟩ ⟨[], []⟩).1.messages_data =
      dayBucket "d1" ([] : List (String × List String)) ++ ["ERROR"] :=
  classifier_error_still_persisted_and_counted (fun _ => Except.error ()) (fun s => s)
    "u1" "d1" 3 ⟨true, 7, "س".data⟩ ⟨[], []⟩ rfl (by decide) rfl

/-! ## Claim C4 -/

/-- C4 (code bug): the handler's filter is `event.is_group and
event.raw_text` only — the configured monitored `group_id` (moodbot.py 28,
"Group where the bot is active") is never consulted, and the handler is
registered with an unrestricted `events.NewMessage()`.  A non-empty
message from a group with chat id 999 — whatever the monitored group is —
runs the full pipeline (classified, persisted, aggregated, even alerted),
and the handler's result does not depend on the chat id at all. -/
theorem other_group_message_still_processed :
    (mood_analyzer (fun _ => Except.ok ("SAD", mkRat 9 10)) (fun s => s) "u1" "d1" 5 true
        ⟨true, 999, "سلام".data⟩ ⟨[], []⟩).1 =
      ⟨[⟨"u1", "سلام".data, "NEGATIVE", mkRat 9 10, none, 5⟩], [("d1", ["NEGATIVE"])]⟩ ∧
    (mood_analyzer (fun _ => Except.ok ("SAD", mkRat 9 10)) (fun s => s) "u1" "d1" 5 true
        ⟨true, 999, "سلام".data⟩ ⟨[], []⟩).2.isAlert = true ∧
    (∀ chatId : Int,
      mood_analyzer (fun _ => Except.ok ("SAD", mkRat 9 10)) (fun s => s) "u1" "d1" 5 true
        ⟨true, chatId, "سلام".data⟩ ⟨[], []⟩ =
      mood_analyzer (fun _ => Except.ok ("SAD", mkRat 9 10)) (fun s => s) "u1" "d1" 5 true
        ⟨true, 999, "سلام".data⟩ ⟨[], []⟩) :=
  ⟨by decide, by decide, fun _ => rfl⟩

/-! ## Claim C5 -/

/-- C5: when the record-store insert fails (`StorageUnavailable`, i.e. the
sqlite call in `save_message_data` raises), the handler aborts: no alert
is sent for that message and the state is unchanged — even when the
classified sentiment is `NEGATIVE` with score above the threshold. -/
theorem storage_failure_suppresses_alert
    (classify : List Char → Except Unit (String × ℚ))
    (hazmNormalize : List Char → List Char) (unique_id today : String)
    (now : Nat) (ev : Event) (st : BotState)
    (hg : ev.is_group = true) (ht : ev.raw_text ≠ []) :
    (mood_analyzer classify hazmNormalize unique_id today now false ev st).2 =
      MoodOutcome.storageFailed ∧
    (mood_analyzer classify hazmNormalize unique_id today now false ev st).2.isAlert = false ∧
    (mood_analyzer classify hazmNormalize unique_id today now false ev st).1 = st := by
  refine ⟨?_, ?_, ?_⟩ <;> simp [mood_analyzer, hg, ht, MoodOutcome.isAlert]

/-- Witness for C5: a message that would otherwise qualify for an alert
(`NEGATIVE` at score 0.9) produces none when storage is unavailable. -/
theorem storage_failure_suppresses_alert_witness :
    (mood_analyzer (fun _ => Except.ok ("SAD", mkRat 9 10)) (fun s => s) "u1" "d1" 5 false
        ⟨true, 999, "سلام".data⟩ ⟨[], []⟩).2 = MoodOutcome.storageFailed ∧
    (mood_analyzer (fun _ => Except.ok ("SAD", mkRat 9 10)) (fun s => s) "u1" "d1" 5 false
        ⟨true, 999, "سلام".data⟩ ⟨[], []⟩).2.isAlert = false ∧
    (mood_analyzer (fun _ => Except.ok ("SAD", mkRat 9 10)) (fun s => s) "u1" "d1" 5 false
        ⟨true, 999, "سلام".data⟩ ⟨[], []⟩).1 = ⟨[], []⟩ :=
  storage_failure_suppresses_alert (fun _ => Except.ok ("SAD", mkRat 9 10)) (fun s => s)
    "u1" "d1" 5 ⟨true, 999, "سلام".data⟩ ⟨[], []⟩ rfl (by decide)

/-! ## Claim C6 -/

/-- Counterexample to C6 as stated: updating the label for an id present
nowhere in the store completes with `DbOutcome.ok` — the SQL UPDATE simply
matches zero rows, the rowcount is never inspected, and no `RecordNotFound`
error is surfaced to the caller. -/
theorem unknown_id_update_reports_ok :
    update_feedback_in_dataset "bbb" "negative"
        [⟨"aaa", [], "NEUTRAL", 0, none, 0⟩] =
      ([⟨"aaa", [], "NEUTRAL", 0, none, 0⟩], DbOutcome.ok) ∧
    DbOutcome.ok ≠ DbOutcome.recordNotFound := by
  refine ⟨by decide, by decide⟩

/-- C6 amended: updating the label for an id not present in the store
leaves every record unchanged, but no `RecordNotFound` error is returned —
the operation completes silently with `DbOutcome.ok`. -/
theorem unknown_id_update_is_silent_noop (unique_id label : String)
    (store : List SentimentRecord) (h : ∀ r ∈ store, r.id ≠ unique_id) :
    update_feedback_in_dataset unique_id label store = (store, DbOutcome.ok) := by
  have h1 := map_eq_self_of_no_match unique_id label store h
  exact Prod.ext h1 rfl

/-- Witness for the amended C6 on a concrete store without the id. -/
theorem unknown_id_update_is_silent_noop_witness :
    update_feedback_in_dataset "bbb" "not_negative"
        [⟨"aaa", [], "NEUTRAL", 0, none, 0⟩, ⟨"ccc", [], "POSITIVE", 1, none, 1⟩] =
      ([⟨"aaa", [], "NEUTRAL", 0, none, 0⟩, ⟨"ccc", [], "POSITIVE", 1, none, 1⟩],
        DbOutcome.ok) :=
  unknown_id_update_is_silent_noop "bbb" "not_negative"
    [⟨"aaa", [], "NEUTRAL", 0, none, 0⟩, ⟨"ccc", [], "POSITIVE", 1, none, 1⟩]
    (by decide)

/-! ## Claim C7 -/

/-- Counterexample to C7 as stated: an interaction whose payload lacks the
`action:record_id` separator makes `data.split(":", 1)[1]` raise an
uncaught `IndexError`; the handler crashes and the reviewer is never
acknowledged. -/
theorem malformed_payload_crashes :
    handle_feedback "garbage".data [] = FeedbackOutcome.crashed ∧
    (handle_feedback "garbage".data []).isAck = false := by
  refine ⟨by decide, by decide⟩

/-- C7 amended: only interaction events whose payload contains the `:`
separator are handled without crashing; for those the reviewer is always
acknowledged (whatever the store holds).  A payload with no colon raises
`IndexError` and no acknowledgment is sent. -/
theorem payload_with_separator_is_acknowledged (payload : List Char)
    (store : List SentimentRecord) (h : ':' ∈ payload) :
    (handle_feedback payload store).isAck = true := by
  obtain ⟨r, hr⟩ := splitFirstColon_of_mem payload h
  unfold handle_feedback
  rw [hr]
  rfl

/-- Witness for the amended C7 on a well-formed payload. -/
theorem payload_with_separator_is_acknowledged_witness :
    (handle_feedback "label_negative:ab12".data []).isAck = true :=
  payload_with_separator_is_acknowledged "label_negative:ab12".data [] (by decide)

/-! ## Claim C10 -/

/-- C10: with record ids drawn from `str(uuid.uuid4())` (lowercase hex
digits and dashes), the substring test of `handle_feedback` maps the
payload `label_negative:<id>` to `negative` and `label_not_negative:<id>`
to `not_negative`: the substring `label_negative` never occurs inside a
`label_not_negative:<id>` payload, so the two buttons are never confused. -/
theorem feedback_tokens_never_confused (unique_id : String)
    (h : ∀ c ∈ unique_id.data, isHexDash c = true) :
    decodeLabel ("label_negative:" ++ unique_id).data = "negative" ∧
    decodeLabel ("label_not_negative:" ++ unique_id).data = "not_negative" := by
  constructor
  · unfold decodeLabel
    rw [string_data_append]
    rw [if_pos]
    apply containsSubstr_of_prefixMatches _ _ (by decide)
    rw [show ("label_negative:".data) = "label_negative".data ++ [':'] from rfl,
      List.append_assoc]
    exact prefixMatches_append_self _ _
  · unfold decodeLabel
    rw [string_data_append]
    rw [if_neg]
    intro hcon
    rw [show ("label_not_negative:".data) =
      'l' :: 'a' :: 'b' :: 'e' :: 'l' :: '_' :: 'n' :: 'o' :: 't' :: '_' :: 'n' :: 'e' ::
        'g' :: 'a' :: 't' :: 'i' :: 'v' :: 'e' :: ':' :: [] from rfl] at hcon
    simp only [List.cons_append, List.nil_append, containsSubstr, Bool.or_eq_true] at hcon
    rcases hcon with hx|hx|hx|hx|hx|hx|hx|hx|hx|hx|hx|hx|hx|hx|hx|hx|hx|hx|hx|hx
    all_goals first
      | (exact absurd hx
          (ne_true_of_eq_false (containsSubstr_negToken_hexdash unique_id.data h)))
      | (revert hx; simp +decide [prefixMatches])

/-- Witness for C10 at a concrete uuid-shaped id. -/
theorem feedback_tokens_never_confused_witness :
    decodeLabel ("label_negative:" ++ "0a1b-2c3d").data = "negative" ∧
    decodeLabel ("label_not_negative:" ++ "0a1b-2c3d").data = "not_negative" :=
  feedback_tokens_never_confused "0a1b-2c3d" (by decide)

/-! ## Lemmas about the normalization chain

These characterize the output of the regex chain up to the `hazm` call
(`CleanText`) and show every step of the chain fixes such texts, which
settles when `preprocess_text` is idempotent. -/

theorem arabic_not_space (c : Char) (hc : isArabicChar c = true) : isSpaceChar c = false := by
  simp only [isArabicChar, decide_eq_true_eq] at hc
  simp only [isSpaceChar, decide_eq_false_iff_not]
  omega

theorem arabic_or_space_ne (c : Char) (hc : isArabicChar c = true ∨ c = ' ') (d : Char)
    (hd : isArabicChar d = false) (hds : d ≠ ' ') : c ≠ d := by
  intro he
  subst he
  rcases hc with h1 | h1
  · rw [hd] at h1
    exact Bool.false_ne_true h1
  · exact hds h1

theorem not_emoji_of_arabic_or_space (c : Char) (hc : isArabicChar c = true ∨ c = ' ') :
    isEmojiChar c = false := by
  rcases hc with h1 | h1
  · simp only [isArabicChar, decide_eq_true_eq] at h1
    simp only [isEmojiChar, decide_eq_false_iff_not]
    omega
  · subst h1
    decide

theorem not_latin_of_arabic_or_space (c : Char) (hc : isArabicChar c = true ∨ c = ' ') :
    isLatinLetter c = false := by
  rcases hc with h1 | h1
  · simp only [isArabicChar, decide_eq_true_eq] at h1
    simp only [isLatinLetter, decide_eq_false_iff_not]
    omega
  · subst h1
    decide

theorem keep_of_arabic_or_space (c : Char) (hc : isArabicChar c = true ∨ c = ' ') :
    (isArabicChar c || isSpaceChar c) = true := by
  rcases hc with h1 | h1
  · simp [h1]
  · subst h1
    decide

theorem not_digit_of_arabic_not_arabicdigit (c : Char) (h1 : isArabicChar c = true)
    (h2 : isArabicDigit c = false) : isDigitChar c = false := by
  simp only [isArabicChar, decide_eq_true_eq] at h1
  simp only [isArabicDigit, decide_eq_false_iff_not] at h2
  simp only [isDigitChar, decide_eq_false_iff_not]
  omega

theorem urlScan_id (s : List Char) (hs : ∀ c ∈ s, isArabicChar c = true ∨ c = ' ') :
    urlScan false s = s := by
  induction s with
  | nil => rfl
  | cons c rest ih =>
    have hc := hs c (List.mem_cons_self c rest)
    have hch : c ≠ 'h' := arabic_or_space_ne c hc 'h' (by decide) (by decide)
    have hcw : c ≠ 'w' := arabic_or_space_ne c hc 'w' (by decide) (by decide)
    have hm : urlMatchStart (c :: rest) = false := by
      unfold urlMatchStart
      rw [show ("http".data) = 'h' :: "ttp".data from rfl,
        show ("www.".data) = 'w' :: "ww.".data from rfl]
      simp [prefixMatches, Ne.symm hch, Ne.symm hcw]
    have hrest := ih (fun d hd => hs d (List.mem_cons_of_mem c hd))
    simp [urlScan, hm, hrest]

theorem markScan_id (mark : Char) (s : List Char) (hs : ∀ c ∈ s, c ≠ mark) :
    markScan mark false s = s := by
  induction s with
  | nil => rfl
  | cons c rest ih =>
    have hc := hs c (List.mem_cons_self c rest)
    have hrest := ih (fun d hd => hs d (List.mem_cons_of_mem c hd))
    simp [markScan, hc, hrest]

theorem collapseWsAux_true_head (s : List Char) (c : Char)
    (h : (collapseWsAux true s).head? = some c) : isSpaceChar c = false := by
  induction s with
  | nil => simp [collapseWsAux] at h
  | cons a rest ih =>
    by_cases ha : isSpaceChar a = true
    · rw [show collapseWsAux true (a :: rest) = collapseWsAux true rest from by
        simp [collapseWsAux, ha]] at h
      exact ih h
    · rw [show collapseWsAux true (a :: rest) = a :: collapseWsAux false rest from by
        simp [collapseWsAux, ha]] at h
      simp only [List.head?, Option.some.injEq] at h
      subst h
      simpa using ha

theorem collapseWsAux_chain (b : Bool) (s : List Char) :
    List.Chain' (fun a c => ¬(a = ' ' ∧ c = ' ')) (collapseWsAux b s) := by
  induction s generalizing b with
  | nil => simp [collapseWsAux]
  | cons a rest ih =>
    by_cases ha : isSpaceChar a = true
    · cases b with
      | true =>
        rw [show collapseWsAux true (a :: rest) = collapseWsAux true rest from by
          simp [collapseWsAux, ha]]
        exact ih true
      | false =>
        rw [show collapseWsAux false (a :: rest) = ' ' :: collapseWsAux true rest from by
          simp [collapseWsAux, ha]]
        rw [List.chain'_cons']
        refine ⟨?_, ih true⟩
        intro y hy
        have hns := collapseWsAux_true_head rest y (Option.mem_def.mp hy)
        rintro ⟨-, h2⟩
        subst h2
        exact absurd hns (by decide)
    · rw [show collapseWsAux b (a :: rest) = a :: collapseWsAux false rest from by
        simp [collapseWsAux, ha]]
      rw [List.chain'_cons']
      refine ⟨?_, ih false⟩
      rintro y hy ⟨h1, -⟩
      subst h1
      exact ha (by decide)

theorem collapseWsAux_mem (s : List Char) (b : Bool) (c : Char)
    (h : c ∈ collapseWsAux b s) : c = ' ' ∨ (c ∈ s ∧ isSpaceChar c = false) := by
  induction s generalizing b with
  | nil => simp [collapseWsAux] at h
  | cons a rest ih =>
    by_cases ha : isSpaceChar a = true
    · cases b with
      | true =>
        rw [show collapseWsAux true (a :: rest) = collapseWsAux true rest from by
          simp [collapseWsAux, ha]] at h
        rcases ih true h with h1 | ⟨h1, h2⟩
        · exact Or.inl h1
        · exact Or.inr ⟨List.mem_cons_of_mem a h1, h2⟩
      | false =>
        rw [show collapseWsAux false (a :: rest) = ' ' :: collapseWsAux true rest from by
          simp [collapseWsAux, ha]] at h
        rcases List.mem_cons.mp h with h1 | h1
        · exact Or.inl h1
        · rcases ih true h1 with h2 | ⟨h2, h3⟩
          · exact Or.inl h2
          · exact Or.inr ⟨List.mem_cons_of_mem a h2, h3⟩
    · rw [show collapseWsAux b (a :: rest) = a :: collapseWsAux false rest from by
        simp [collapseWsAux, ha]] at h
      rcases List.mem_cons.mp h with rfl | h1
      · exact Or.inr ⟨List.mem_cons_self c rest, by simpa using ha⟩
      · rcases ih false h1 with h2 | ⟨h2, h3⟩
        · exact Or.inl h2
        · exact Or.inr ⟨List.mem_cons_of_mem a h2, h3⟩

theorem collapseWsAux_fix (s : List Char) (b : Bool)
    (hsp : ∀ c ∈ s, isSpaceChar c = true → c = ' ')
    (hch : List.Chain' (fun a c => ¬(a = ' ' ∧ c = ' ')) s)
    (hb : b = true → ∀ c, s.head? = some c → isSpaceChar c = false) :
    collapseWsAux b s = s := by
  induction s generalizing b with
  | nil => rfl
  | cons a rest ih =>
    by_cases ha : isSpaceChar a = true
    · have hasp : a = ' ' := hsp a (List.mem_cons_self a rest) ha
      cases b with
      | true => exact absurd ha (by simp [hb rfl a rfl])
      | false =>
        rw [show collapseWsAux false (a :: rest) = ' ' :: collapseWsAux true rest from by
          simp [collapseWsAux, ha]]
        rw [ih true (fun d hd => hsp d (List.mem_cons_of_mem a hd))
          (List.chain'_cons'.mp hch).2 ?_, hasp]
        intro _ d hd
        have hmem : d ∈ rest := List.mem_of_mem_head? (Option.mem_def.mpr hd)
        have hnp := (List.chain'_cons'.mp hch).1 d (Option.mem_def.mpr hd)
        by_contra hds
        have hds' : isSpaceChar d = true := by
          revert hds
          cases isSpaceChar d <;> simp
        exact hnp ⟨hasp, hsp d (List.mem_cons_of_mem a hmem) hds'⟩
    · rw [show collapseWsAux b (a :: rest) = a :: collapseWsAux false rest from by
        simp [collapseWsAux, ha]]
      rw [ih false (fun d hd => hsp d (List.mem_cons_of_mem a hd))
        (List.chain'_cons'.mp hch).2 (fun hfalse => absurd hfalse Bool.false_ne_true)]

theorem dropWhile_head_not (p : Char → Bool) (s : List Char) (c : Char)
    (h : (s.dropWhile p).head? = some c) : p c = false := by
  induction s with
  | nil => simp [List.dropWhile] at h
  | cons a rest ih =>
    by_cases ha : p a = true
    · rw [List.dropWhile_cons, if_pos ha] at h
      exact ih h
    · rw [List.dropWhile_cons, if_neg ha] at h
      simp only [List.head?, Option.some.injEq] at h
      subst h
      simpa using ha

theorem dropWhile_eq_self_of_head (p : Char → Bool) (s : List Char)
    (h : ∀ c, s.head? = some c → p c = false) : s.dropWhile p = s := by
  cases s with
  | nil => rfl
  | cons a rest => rw [List.dropWhile_cons, if_neg (by simp [h a rfl])]

theorem dropWhile_getLast_of_ne_nil (p : Char → Bool) (s : List Char)
    (h : s.dropWhile p ≠ []) : (s.dropWhile p).getLast? = s.getLast? := by
  induction s with
  | nil => simp [List.dropWhile] at h
  | cons a rest ih =>
    by_cases ha : p a = true
    · rw [List.dropWhile_cons, if_pos ha] at h ⊢
      rw [ih h]
      have hne : rest ≠ [] := by
        intro he
        subst he
        simp [List.dropWhile] at h
      cases rest with
      | nil => exact absurd rfl hne
      | cons b t => rw [List.getLast?_cons_cons]
    · rw [List.dropWhile_cons, if_neg ha]

theorem chain_dropWhile (R : Char → Char → Prop) (p : Char → Bool) (s : List Char)
    (h : List.Chain' R s) : List.Chain' R (s.dropWhile p) := by
  induction s with
  | nil => exact h
  | cons a rest ih =>
    by_cases ha : p a = true
    · rw [List.dropWhile_cons, if_pos ha]
      exact ih h.tail
    · rw [List.dropWhile_cons, if_neg ha]
      exact h

theorem chain_reverse_noPair (s : List Char)
    (h : List.Chain' (fun a c => ¬(a = ' ' ∧ c = ' ')) s) :
    List.Chain' (fun a c => ¬(a = ' ' ∧ c = ' ')) s.reverse := by
  rw [List.chain'_reverse]
  exact h.imp (fun a c hac => fun hp => hac ⟨hp.2, hp.1⟩)

theorem urlScan_mem (s : List Char) (b : Bool) (c : Char) (h : c ∈ urlScan b s) :
    c ∈ s := by
  induction s generalizing b with
  | nil => simp [urlScan] at h
  | cons a rest ih =>
    by_cases h1 : b = true ∧ isSpaceChar a = false
    · rw [show urlScan b (a :: rest) = urlScan true rest from by
        rw [urlScan, if_pos h1]] at h
      exact List.mem_cons_of_mem a (ih true h)
    · by_cases h2 : urlMatchStart (a :: rest) = true
      · rw [show urlScan b (a :: rest) = urlScan true rest from by
          rw [urlScan, if_neg h1, if_pos h2]] at h
        exact List.mem_cons_of_mem a (ih true h)
      · rw [show urlScan b (a :: rest) = a :: urlScan false rest from by
          rw [urlScan, if_neg h1, if_neg h2]] at h
        rcases List.mem_cons.mp h with rfl | h3
        · exact List.mem_cons_self c rest
        · exact List.mem_cons_of_mem a (ih false h3)

theorem markScan_mem (mark : Char) (s : List Char) (b : Bool) (c : Char)
    (h : c ∈ markScan mark b s) : c ∈ s := by
  induction s generalizing b with
  | nil => simp [markScan] at h
  | cons a rest ih =>
    by_cases h1 : b = true ∧ isWordChar a = true
    · rw [show markScan mark b (a :: rest) = markScan mark true rest from by
        rw [markScan, if_pos h1]] at h
      exact List.mem_cons_of_mem a (ih true h)
    · by_cases h2 : a = mark ∧ firstIsWord rest = true
      · rw [show markScan mark b (a :: rest) = markScan mark true rest from by
          rw [markScan, if_neg h1, if_pos h2]] at h
        exact List.mem_cons_of_mem a (ih true h)
      · rw [show markScan mark b (a :: rest) = a :: markScan mark false rest from by
          rw [markScan, if_neg h1, if_neg h2]] at h
        rcases List.mem_cons.mp h with rfl | h3
        · exact List.mem_cons_self c rest
        · exact List.mem_cons_of_mem a (ih false h3)

theorem stripEnds_mem (s : List Char) (c : Char) (h : c ∈ stripEnds s) : c ∈ s := by
  unfold stripEnds at h
  have h1 := List.mem_reverse.mp h
  have h2 := (List.dropWhile_sublist (l := (s.dropWhile (fun c => isSpaceChar c)).reverse)
    (fun c => isSpaceChar c)).subset h1
  have h3 := List.mem_reverse.mp h2
  exact (List.dropWhile_sublist (l := s) (fun c => isSpaceChar c)).subset h3

theorem cleanText_stripCollapse (u : List Char)
    (hu : ∀ c ∈ u, (isArabicChar c || isSpaceChar c) = true) :
    CleanText (stripEnds (collapseWs u)) := by
  have hvmem : ∀ c ∈ collapseWs u, isArabicChar c = true ∨ c = ' ' := by
    intro c hc
    rcases collapseWsAux_mem u false c hc with h1 | ⟨h1, h2⟩
    · exact Or.inr h1
    · have := hu c h1
      rcases Bool.or_eq_true_iff.mp this with h3 | h3
      · exact Or.inl h3
      · rw [h3] at h2
        exact absurd h2 (by decide)
  refine ⟨?_, ?_, ?_, ?_⟩
  · intro c hc
    exact hvmem c (stripEnds_mem (collapseWs u) c hc)
  · unfold stripEnds
    exact chain_reverse_noPair _ (chain_dropWhile _ _ _ (chain_reverse_noPair _
      (chain_dropWhile _ _ _ (collapseWsAux_chain false u))))
  · intro c hc
    unfold stripEnds at hc
    rw [List.head?_reverse] at hc
    have hne : ((collapseWs u).dropWhile (fun c => isSpaceChar c)).reverse.dropWhile
        (fun c => isSpaceChar c) ≠ [] := by
      intro he
      rw [he] at hc
      simp at hc
    rw [dropWhile_getLast_of_ne_nil _ _ hne, List.getLast?_reverse] at hc
    have := dropWhile_head_not (fun c => isSpaceChar c) (collapseWs u) c hc
    intro he
    subst he
    exact absurd this (by decide)
  · intro c hc
    unfold stripEnds at hc
    rw [List.getLast?_reverse] at hc
    have := dropWhile_head_not (fun c => isSpaceChar c)
      ((collapseWs u).dropWhile (fun c => isSpaceChar c)).reverse c hc
    intro he
    subst he
    exact absurd this (by decide)

theorem stripEnds_fix (t : List Char)
    (hmem : ∀ c ∈ t, isArabicChar c = true ∨ c = ' ')
    (hhead : ∀ c, t.head? = some c → c ≠ ' ')
    (hlast : ∀ c, t.getLast? = some c → c ≠ ' ') : stripEnds t = t := by
  have hns : ∀ c ∈ t, c ≠ ' ' → isSpaceChar c = false := by
    intro c hc hne
    rcases hmem c hc with h1 | h1
    · exact arabic_not_space c h1
    · exact absurd h1 hne
  unfold stripEnds
  rw [dropWhile_eq_self_of_head _ _ (fun c hc =>
    hns c (List.mem_of_mem_head? (Option.mem_def.mpr hc)) (hhead c hc))]
  rw [dropWhile_eq_self_of_head _ _ ?_, List.reverse_reverse]
  intro c hc
  rw [List.head?_reverse] at hc
  have hmemc : c ∈ t := by
    cases t with
    | nil => simp at hc
    | cons a rest =>
      have := List.getLast?_eq_getLast (a :: rest) (by simp)
      rw [this] at hc
      simp only [Option.some.injEq] at hc
      subst hc
      exact List.getLast_mem (by simp)
  exact hns c hmemc (hlast c hc)

theorem preprocess_fix (hazmNormalize : List Char → List Char)
    (hh : ∀ x, CleanText x → hazmNormalize x = x) (t : List Char)
    (hclean : CleanText t) (hdig : ∀ c ∈ t, isDigitChar c = false) :
    preprocess_text hazmNormalize t = t := by
  obtain ⟨hmem, hch, hhead, hlast⟩ := hclean
  have h1 : removeUrls t = t := urlScan_id t hmem
  have h2 : removeMentions t = t :=
    markScan_id '@' t (fun c hc => arabic_or_space_ne c (hmem c hc) '@' (by decide) (by decide))
  have h3 : removeHashtags t = t :=
    markScan_id '#' t (fun c hc => arabic_or_space_ne c (hmem c hc) '#' (by decide) (by decide))
  have h4 : removeEmoji t = t :=
    List.filter_eq_self.mpr (fun c hc => by rw [not_emoji_of_arabic_or_space c (hmem c hc)]; rfl)
  have h5 : removeLatin t = t :=
    List.filter_eq_self.mpr (fun c hc => by rw [not_latin_of_arabic_or_space c (hmem c hc)]; rfl)
  have h6 : keepArabicAndSpace t = t :=
    List.filter_eq_self.mpr (fun c hc => keep_of_arabic_or_space c (hmem c hc))
  have h7 : collapseWs t = t := by
    unfold collapseWs
    refine collapseWsAux_fix t false ?_ hch (fun hfalse => absurd hfalse Bool.false_ne_true)
    intro c hc hcs
    rcases hmem c hc with hh1 | hh1
    · exact absurd hcs (by simp [arabic_not_space c hh1])
    · exact hh1
  have h8 : stripEnds t = t := stripEnds_fix t hmem hhead hlast
  have h9 : hazmNormalize t = t := hh t ⟨hmem, hch, hhead, hlast⟩
  have h10 : removeDigits t = t :=
    List.filter_eq_self.mpr (fun c hc => by rw [hdig c hc]; rfl)
  unfold preprocess_text
  rw [h1, h2, h3, h4, h5, h6, h7, h8, h9, h10]

/-! ## Claim C8 -/

/-- Counterexample to C8 as stated: normalization is not idempotent.  The
digit-stripping step runs after whitespace collapsing, so removing an
Arabic-script digit (here `۱`, U+06F1, which survives the target-script
filter) can leave a leading space that only a second application removes:
with the external normalizer fixing its input, `"۱ ا"` normalizes to
`" ا"` once and to `"ا"` twice. -/
theorem normalization_not_idempotent :
    preprocess_text (fun s => s) (preprocess_text (fun s => s) "۱ ا".data) ≠
      preprocess_text (fun s => s) "۱ ا".data := by decide

/-- C8 amended: the normalization step is idempotent on inputs containing
no Arabic-script digit characters (the sole characters the final
digit-stripping step can remove after the target-script filter), provided
the external `hazm` normalizer fixes already-normalized target-script
texts.  In general a second application can further collapse whitespace
exposed by the digit-stripping step. -/
theorem normalization_idempotent_on_digitfree
    (hazmNormalize : List Char → List Char)
    (hh : ∀ x, CleanText x → hazmNormalize x = x)
    (text : List Char) (hd : ∀ c ∈ text, isArabicDigit c = false) :
    preprocess_text hazmNormalize (preprocess_text hazmNormalize text) =
      preprocess_text hazmNormalize text := by
  have humem : ∀ c ∈ keepArabicAndSpace (removeLatin (removeEmoji (removeHashtags
      (removeMentions (removeUrls text))))), (isArabicChar c || isSpaceChar c) = true :=
    fun c hc => (List.mem_filter.mp hc).2
  have hclean := cleanText_stripCollapse _ humem
  have humem2 : ∀ c ∈ keepArabicAndSpace (removeLatin (removeEmoji (removeHashtags
      (removeMentions (removeUrls text))))), c ∈ text := by
    intro c hc
    have s1 := List.mem_of_mem_filter hc
    have s2 := List.mem_of_mem_filter s1
    have s3 := List.mem_of_mem_filter s2
    have s4 := markScan_mem '#' _ false c s3
    have s5 := markScan_mem '@' _ false c s4
    exact urlScan_mem _ false c s5
  have hdig : ∀ c ∈ stripEnds (collapseWs (keepArabicAndSpace (removeLatin (removeEmoji
      (removeHashtags (removeMentions (removeUrls text))))))), isDigitChar c = false := by
    intro c hc
    have hmc := stripEnds_mem _ c hc
    rcases collapseWsAux_mem _ false c hmc with h1 | ⟨h1, -⟩
    · subst h1
      decide
    · rcases hclean.1 c hc with h2 | h2
      · exact not_digit_of_arabic_not_arabicdigit c h2 (hd c (humem2 c h1))
      · subst h2
        decide
  have hfirst : preprocess_text hazmNormalize text = stripEnds (collapseWs
      (keepArabicAndSpace (removeLatin (removeEmoji (removeHashtags (removeMentions
        (removeUrls text))))))) := by
    unfold preprocess_text
    rw [hh _ hclean]
    exact List.filter_eq_self.mpr (fun c hc => by rw [hdig c hc]; rfl)
  rw [hfirst]
  exact preprocess_fix hazmNormalize hh _ hclean hdig

/-- Witness for the amended C8: a digit-free Persian text, with the
external normalizer instantiated to the identity (which fixes every
clean text). -/
theorem normalization_idempotent_on_digitfree_witness :
    preprocess_text (fun s => s) (preprocess_text (fun s => s) "ا ب".data) =
      preprocess_text (fun s => s) "ا ب".data :=
  normalization_idempotent_on_digitfree (fun s => s) (fun x _ => rfl) "ا ب".data (by decide)

/-! ## Claim C9 -/

/-- C9: the normalization chain strips URLs, mentions, hashtags, emoji,
Latin letters, characters outside the target script, and digits, in that
order (the order of `preprocess_text`); on the spec's scenario input the
result is `"سلام"`, which contains only Persian (target-script) letters and
spaces.  The external `hazm` normalizer is only assumed to fix the already
clean intermediate text `"سلام"`. -/
theorem normalization_scenario_persian_only
    (hazmNormalize : List Char → List Char)
    (hh : hazmNormalize "سلام".data = "سلام".data) :
    preprocess_text hazmNormalize "سلام http://x.com @joe #tag 😊123".data = "سلام".data ∧
    ∀ c ∈ preprocess_text hazmNormalize "سلام http://x.com @joe #tag 😊123".data,
      isArabicChar c = true ∨ c = ' ' := by
  have key : stripEnds (collapseWs (keepArabicAndSpace (removeLatin (removeEmoji
      (removeHashtags (removeMentions (removeUrls
        "سلام http://x.com @joe #tag 😊123".data))))))) = "سلام".data := by decide
  have hmain : preprocess_text hazmNormalize "سلام http://x.com @joe #tag 😊123".data =
      "سلام".data := by
    unfold preprocess_text
    rw [key, hh]
    decide
  refine ⟨hmain, ?_⟩
  rw [hmain]
  decide

/-- Witness for C9 with the external normalizer instantiated to the
identity. -/
theorem normalization_scenario_persian_only_witness :
    preprocess_text (fun s => s) "سلام http://x.com @joe #tag 😊123".data = "سلام".data ∧
    ∀ c ∈ preprocess_text (fun s => s) "سلام http://x.com @joe #tag 😊123".data,
      isArabicChar c = true ∨ c = ' ' :=
  normalization_scenario_persian_only (fun s => s) rfl
